import Mathlib

/-!
Verification development for the `periodic-strontium` resilient request
client.  Each definition is a shallow embedding of the corresponding
TypeScript source construct:

* `RequestState`, `allowedTransitions`, `smTransition` — `src/core/stateMachine.ts`
* `CircuitBreaker` and its operations — `src/resilience/circuitBreaker.ts`
* `shouldRetry`, `rawDelay`, `computeDelay` — `src/resilience/retry.ts`
* `MetricsSample`, `Metrics.record`, `Metrics.recentFailures` —
  `src/observability/instrumentation.ts`
* `Registry`, `computePayloadHash`, `enforceIntegrity`, `computeDedupeKey`
  — `src/protocol/payloadHash.ts`
* `DedupeMap` operations and the dedupe gate of `StrontiumClient.request`
  — `src/resilience/dedupe.ts`, `src/requestEngine.ts`
* `runLoop` / `executeWithRetry` — `StrontiumClient._executeWithRetry`
  in `src/requestEngine.ts`

`Date.now()` readings are supplied as explicit integer parameters, and the
JavaScript numbers occurring in delay computation are modelled as rationals.
SHA-256 and JSON serialisation are platform primitives; they enter the model
as abstract function parameters (only their determinism matters to the
claims).  Promises held by the dedupe map are modelled by numeric identities.
-/

namespace Strontium

/-! ## State machine (src/core/stateMachine.ts) -/

inductive RequestState
  | IDLE
  | PENDING
  | RETRYING
  | SUCCESS
  | ERROR
  | CANCELLED
deriving DecidableEq, Repr

/-- Transition table `ALLOWED_TRANSITIONS` from `stateMachine.ts`. -/
def allowedTransitions : RequestState → List RequestState
  | .IDLE => [.PENDING, .CANCELLED]
  | .PENDING => [.SUCCESS, .ERROR, .RETRYING, .CANCELLED]
  | .RETRYING => [.PENDING, .SUCCESS, .ERROR, .CANCELLED]
  | .SUCCESS => []
  | .ERROR => []
  | .CANCELLED => []

/-- The `transition` method: either the new state, or the
`DeterministicStateError` payload `(from, to)`. -/
def smTransition (s next : RequestState) : Except (RequestState × RequestState) RequestState :=
  if next ∈ allowedTransitions s then .ok next else .error (s, next)

/-- The `isTerminal` method of the state machine. -/
def RequestState.isTerminal (s : RequestState) : Bool :=
  s ∈ [RequestState.SUCCESS, RequestState.ERROR, RequestState.CANCELLED]

/-! ## Circuit breaker (src/resilience/circuitBreaker.ts) -/

inductive CircuitState
  | CLOSED
  | OPEN
  | HALF_OPEN
deriving DecidableEq, Repr

structure CircuitBreakerConfig where
  failureThreshold : Nat
  resetTimeoutMs : Int
  halfOpenMaxCalls : Nat
deriving DecidableEq, Repr

/-- Defaults `DEFAULT_CIRCUIT_BREAKER_CONFIG`. -/
def defaultCircuitBreakerConfig : CircuitBreakerConfig :=
  { failureThreshold := 5, resetTimeoutMs := 60000, halfOpenMaxCalls := 1 }

structure CircuitBreaker where
  state : CircuitState := .CLOSED
  failures : Nat := 0
  halfOpenCalls : Nat := 0
  lastOpenedAt : Int := 0
deriving DecidableEq, Repr

/-- First half of `check()`: the `if (this.state === OPEN)` block.  `none`
models the `CircuitOpenError` throw. -/
def CircuitBreaker.checkOpenPhase (b : CircuitBreaker) (cfg : CircuitBreakerConfig)
    (now : Int) : Option CircuitBreaker :=
  if b.state = .OPEN then
    if now - b.lastOpenedAt ≥ cfg.resetTimeoutMs then
      some { b with state := .HALF_OPEN, halfOpenCalls := 0 }
    else
      none
  else
    some b

/-- Second half of `check()`: the `if (this.state === HALF_OPEN)` block,
which runs on the state left by the first block. -/
def CircuitBreaker.checkHalfOpenPhase (b : CircuitBreaker)
    (cfg : CircuitBreakerConfig) : Option CircuitBreaker :=
  if b.state = .HALF_OPEN then
    if b.halfOpenCalls ≥ cfg.halfOpenMaxCalls then
      none
    else
      some { b with halfOpenCalls := b.halfOpenCalls + 1 }
  else
    some b

/-- The full `check()` method: the two blocks in sequence. -/
def CircuitBreaker.check (b : CircuitBreaker) (cfg : CircuitBreakerConfig)
    (now : Int) : Option CircuitBreaker :=
  (b.checkOpenPhase cfg now).bind (fun b1 => b1.checkHalfOpenPhase cfg)

/-- The `recordSuccess()` method. -/
def CircuitBreaker.recordSuccess (b : CircuitBreaker) : CircuitBreaker :=
  if b.state = .HALF_OPEN then { b with state := .CLOSED, failures := 0 }
  else if b.state = .CLOSED then { b with failures := 0 }
  else b

/-- The `recordFailure()` method; `now` stands for `Date.now()`. -/
def CircuitBreaker.recordFailure (b : CircuitBreaker) (cfg : CircuitBreakerConfig)
    (now : Int) : CircuitBreaker :=
  let b1 : CircuitBreaker := { b with failures := b.failures + 1 }
  if b1.state = .HALF_OPEN then { b1 with state := .OPEN, lastOpenedAt := now }
  else if b1.failures ≥ cfg.failureThreshold then
    { b1 with state := .OPEN, lastOpenedAt := now }
  else b1

/-- A sequence of `recordFailure()` calls at the given clock readings. -/
def CircuitBreaker.recordFailures (b : CircuitBreaker) (cfg : CircuitBreakerConfig)
    (times : List Int) : CircuitBreaker :=
  times.foldl (fun acc now => acc.recordFailure cfg now) b

/-! ## Retry decision and backoff delay (src/resilience/retry.ts) -/

inductive RetryCondition
  | network
  | fivexx
  | statusEquals (n : Int)
deriving DecidableEq, Repr

/-- Delay strategies; `custom` carries the user function `(attempt, base) → delay`. -/
inductive RetryStrategy
  | fixed
  | linear
  | exponential
  | custom (f : Nat → ℚ → ℚ)

structure RetryConfig where
  enabled : Bool
  maxAttempts : Nat
  strategy : RetryStrategy
  baseDelayMs : ℚ
  maxDelayMs : ℚ
  jitter : Bool
  retryOn : List RetryCondition

/-- The `shouldRetry` decision (the `_error` argument of the source is
ignored by the source itself and therefore dropped here). -/
def shouldRetry (cfg : RetryConfig) (statusCode : Option Int) (attempt : Nat) : Bool :=
  if !cfg.enabled then false
  else if attempt ≥ cfg.maxAttempts then false
  else cfg.retryOn.any fun c =>
    match c, statusCode with
    | .network, none => true
    | .fivexx, some s => s ≥ 500
    | .statusEquals n, some s => s = n
    | _, _ => false

/-- Strategy dispatch at the top of `computeDelay`. -/
def rawDelay (strategy : RetryStrategy) (attempt : Nat) (baseDelayMs : ℚ) : ℚ :=
  match strategy with
  | .custom f => f attempt baseDelayMs
  | .fixed => baseDelayMs
  | .linear => baseDelayMs * attempt
  | .exponential => baseDelayMs * 2 ^ (attempt - 1)

/-- The `computeDelay` function.  The jitter multiplier
`0.5 + Math.random() * 0.5` is passed in as the explicit factor `r`
(`none` when `jitter` is false); the final `Math.floor` is `Int.floor`. -/
def computeDelay (strategy : RetryStrategy) (attempt : Nat) (baseDelayMs maxDelayMs : ℚ)
    (jitterFactor : Option ℚ) : ℤ :=
  let delay := rawDelay strategy attempt baseDelayMs
  let delay := min delay maxDelayMs
  let delay :=
    match jitterFactor with
    | some r => delay * r
    | none => delay
  ⌊delay⌋

/-! ## Metrics buffer (src/observability/instrumentation.ts) -/

structure MetricsSample where
  requestId : String
  url : String
  method : String
  latencyMs : Int
  attempt : Nat
  status : Option Int
  success : Bool
deriving DecidableEq, Repr

/-- Capacity `maxSamples` of the metrics ring. -/
def maxSamples : Nat := 1000

/-- The `record` method: shift the oldest sample out at capacity, push the
new one. -/
def Metrics.record (samples : List MetricsSample) (s : MetricsSample) : List MetricsSample :=
  (if samples.length ≥ maxSamples then samples.drop 1 else samples) ++ [s]

/-- The `recentFailures` method, exactly as written in the source:
`cutoff = Date.now() - windowMs` and the filter keeps samples with
`!s.success && Date.now() - s.latencyMs > cutoff`.  Note that the sample
type carries no timestamp; the comparison mixes the clock with a latency. -/
def Metrics.recentFailures (samples : List MetricsSample) (now : Int)
    (windowMs : Int := 60000) : Nat :=
  let cutoff := now - windowMs
  (samples.filter (fun s => !s.success && decide (now - s.latencyMs > cutoff))).length

/-! ## Payload hashing and integrity registry (src/protocol/payloadHash.ts) -/

/-- JavaScript `Map.get` over an insertion-ordered association list. -/
def jsMapGet {α : Type} (m : List (String × α)) (k : String) : Option α :=
  (m.find? (fun e => e.1 == k)).map (fun e => e.2)

/-- JavaScript `Map.set`: update in place when the key exists (keeping
insertion order), otherwise append. -/
def jsMapSet {α : Type} (m : List (String × α)) (k : String) (v : α) :
    List (String × α) :=
  if (m.find? (fun e => e.1 == k)).isSome then
    m.map (fun e => if e.1 == k then (k, v) else e)
  else
    m ++ [(k, v)]

/-- JavaScript `Map.delete`. -/
def jsMapDelete {α : Type} (m : List (String × α)) (k : String) :
    List (String × α) :=
  m.filter (fun e => e.1 != k)

/-- The in-process `idempotencyKeyHashes` map, modelled as an
insertion-ordered association list (the semantics of a JavaScript Map). -/
abbrev Registry := List (String × String)

/-- Lookup in the integrity registry. -/
def Registry.lookup (r : Registry) (k : String) : Option String :=
  jsMapGet r k

/-- The `idempotencyKeyHashes.set(key, hash)` call. -/
def Registry.set (r : Registry) (k v : String) : Registry :=
  jsMapSet r k v

/-- The `computePayloadHash` function over an abstract body type:
`sha` is the SHA-256 hex digest and `serialize` is `JSON.stringify`;
an absent body canonicalises to the empty string. -/
def computePayloadHash {β : Type} (sha : String → String) (serialize : β → String)
    (body : Option β) : String :=
  sha (match body with | none => "" | some b => serialize b)

/-- The `enforceIntegrity` function: on a fingerprint clash the registry is
untouched and the call fails with `integrity-violation`; otherwise the
fingerprint is (re)pinned and returned. -/
def enforceIntegrity {β : Type} (sha : String → String) (serialize : β → String)
    (reg : Registry) (key : String) (body : Option β) :
    Except Unit (String × Registry) :=
  let hash := computePayloadHash sha serialize body
  match reg.lookup key with
  | some existing =>
      if existing ≠ hash then .error ()
      else .ok (hash, reg.set key hash)
  | none => .ok (hash, reg.set key hash)

/-- The `computeDedupeKey` function. -/
def computeDedupeKey (method url bodyHash : String) : String :=
  method ++ ":" ++ url ++ ":" ++ bodyHash

/-! ## Dedupe map and the dedupe gate of `request` (src/resilience/dedupe.ts,
src/requestEngine.ts) -/

/-- The in-flight dedupe map: keys to promise identities, insertion ordered. -/
abbrev DedupeMap := List (String × Nat)

/-- Capacity bound `MAX_DEDUPE_MAP_SIZE`. -/
def maxDedupeMapSize : Nat := 1000

/-- The `get` method of `DedupeMap`. -/
def DedupeMap.get (m : DedupeMap) (k : String) : Option Nat :=
  jsMapGet m k

/-- The `set` method of `DedupeMap`: evict the oldest key at capacity, then
insert.  Settle-time self-removal is not part of the synchronous `set`. -/
def DedupeMap.set (m : DedupeMap) (k : String) (v : Nat) : DedupeMap :=
  let m1 :=
    if m.length ≥ maxDedupeMapSize then
      match m.head? with
      | some e => jsMapDelete m e.1
      | none => m
    else m
  jsMapSet m1 k v

/-- The dedupe-eligibility condition at the top of
`StrontiumClient.request`. -/
def dedupeEligible (dedupe : Bool) (method : String) (maxAttempts : Nat) : Bool :=
  dedupe && (method == "GET" || method == "HEAD") && decide (maxAttempts ≤ 1)

/-- Result of the dedupe gate: join an existing in-flight promise, start a
fresh deduplicated execution under the given key, or execute directly. -/
inductive DispatchResult
  | shared (p : Nat)
  | fresh (key : String)
  | direct
deriving DecidableEq, Repr

/-- The dedupe gate of `request` (lines 73–98 of `requestEngine.ts`):
when eligible, look the dedupe key up and either return the existing
in-flight promise or register a fresh one; otherwise call
`_executeWithRetry` directly. -/
def requestDispatch (dedupe : Bool) (method fullUrl : String) (maxAttempts : Nat)
    (bodyHash : String) (m : DedupeMap) : DispatchResult :=
  if dedupeEligible dedupe method maxAttempts then
    let key := computeDedupeKey method fullUrl bodyHash
    match m.get key with
    | some p => .shared p
    | none => .fresh key
  else .direct

/-! ## Request engine (src/requestEngine.ts, `_executeWithRetry`)

The awaited `withTimeout(fetch(...))` composite together with body decoding
is abstracted into one observable outcome per attempt.  `resolved` carries
the HTTP status and, for the strict-mode validator, the message of the
exception `schema.parse` would throw on the decoded body (`none` when the
parse succeeds).  `timeout` covers `TimeoutError` and `AbortError`, with
the flag recording whether the caller's external signal had fired.
`exception` covers every other throw; `statusAtThrow` is the value of the
`statusCode` local at that point (`none` when `fetch` itself rejected). -/

inductive AttemptOutcome
  | resolved (status : Int) (validationError : Option String)
  | timeout (externalAborted : Bool)
  | exception (isTypeError : Bool) (statusAtThrow : Option Int)

/-- WHATWG fetch `Response.ok`: status in the inclusive range 200–299. -/
def responseOk (status : Int) : Bool :=
  decide (200 ≤ status) && decide (status < 300)

/-- Constant `MAX_CONCURRENT_REQUESTS`. -/
def maxConcurrentRequests : Nat := 100

inductive HookEvent
  | beforeRequest (attempt : Nat)
  | afterResponse (attempt : Nat)
  | onRetry (attempt : Nat)
  | onCircuitOpen (attempt : Nat)
  | onError (attempt : Nat)
  | onCancel (attempt : Nat)
deriving DecidableEq, Repr

/-- Errors that `_executeWithRetry` can keep in its `lastError` local. -/
inductive LastError
  | httpFailure (status : Int)
  | timeout
  | transport (isTypeError : Bool)
deriving DecidableEq, Repr

/-- Errors `_executeWithRetry` can throw. -/
inductive EngineError
  | maxConcurrent
  | circuitOpen
  | integrityViolation
  | responseValidation (cause : String)
  | timeout
  | transport (isTypeError : Bool)
  | httpFailure (status : Int)
  | requestFailed
  | retryExhausted (attempts : Nat) (lastError : Option LastError)
deriving DecidableEq, Repr

/-- A `lastError` thrown directly (the `maxAttempts ≤ 1` exit). -/
def LastError.toEngineError : LastError → EngineError
  | .httpFailure s => .httpFailure s
  | .timeout => .timeout
  | .transport b => .transport b

/-- Observable per-request execution state threaded through the attempt
loop.  `statesEntered` records the target of every state-machine
transition (all transitions the engine performs are legal under
`allowedTransitions`); `transportCalls` counts invocations of the transport
handle held in the client config, `fetchCalls` those of the global
`fetch`. -/
structure EngineState where
  machine : RequestState
  statesEntered : List RequestState
  hooks : List HookEvent
  breaker : CircuitBreaker
  recordFailureCalls : Nat
  recordSuccessCalls : Nat
  metrics : List MetricsSample
  registry : Registry
  fetchCalls : Nat
  transportCalls : Nat
  lastError : Option LastError
deriving DecidableEq, Repr

/-- Static inputs of one `_executeWithRetry` call.  `transport` is the
handle stored from the client config; `fetchImpl` is the global `fetch`
(attempt-indexed outcomes); `times` and `latencies` supply the `Date.now()`
readings and measured latencies per attempt. -/
structure EngineEnv where
  retry : RetryConfig
  breakerCfg : CircuitBreakerConfig
  inFlight : Nat
  isIdempotent : Bool
  strictMode : Bool
  hasSchema : Bool
  body : Option String
  idemKeyOpt : Option String
  genIdemKey : Nat → String
  sha : String → String
  transport : Nat → AttemptOutcome
  fetchImpl : Nat → AttemptOutcome
  times : Nat → Int
  latencies : Nat → Int
  requestId : String
  url : String
  method : String

/-- A `machine.transition(st)` call (legal on every engine path). -/
def enterState (s : EngineState) (st : RequestState) : EngineState :=
  { s with machine := st, statesEntered := s.statesEntered ++ [st] }

/-- A hook firing (hook-internal exceptions are swallowed by `runHook`). -/
def fireHook (s : EngineState) (h : HookEvent) : EngineState :=
  { s with hooks := s.hooks ++ [h] }

/-- A `this.metrics.record({...})` call for attempt `a`. -/
def recordSample (env : EngineEnv) (s : EngineState) (a : Nat) (status : Option Int)
    (success : Bool) : EngineState :=
  let sample : MetricsSample :=
    { requestId := env.requestId, url := env.url, method := env.method,
      latencyMs := env.latencies a, attempt := a, status := status,
      success := success }
  { s with metrics := Metrics.record s.metrics sample }

/-- A `recordFailure` on the client breaker at attempt `a`. -/
def breakerFail (env : EngineEnv) (s : EngineState) (a : Nat) : EngineState :=
  { s with breaker := s.breaker.recordFailure env.breakerCfg (env.times a),
           recordFailureCalls := s.recordFailureCalls + 1 }

/-- The code after the attempt loop (lines 322–326): transition to ERROR,
then throw `lastError` (or the `Request failed` fallback) when
`maxAttempts ≤ 1`, else `RetryExhaustedError`. -/
def exitHandling (env : EngineEnv) (s : EngineState) :
    EngineState × Except EngineError (Nat × Int) :=
  let s1 := enterState s .ERROR
  if env.retry.maxAttempts ≤ 1 then
    match s1.lastError with
    | some e => (s1, .error e.toEngineError)
    | none => (s1, .error .requestFailed)
  else
    (s1, .error (.retryExhausted env.retry.maxAttempts s1.lastError))

/-- The idempotent-protocol header block of the attempt (lines 148–155):
resolve the idempotency key, consult the integrity registry when a body is
present.  The error case is the `IntegrityViolationError` throw. -/
def idempotentHeaderStep (env : EngineEnv) (a : Nat) (s1 : EngineState) :
    Except Unit EngineState :=
  if env.isIdempotent then
    match env.body with
    | some _ =>
        let key := env.idemKeyOpt.getD (env.genIdemKey a)
        match enforceIntegrity env.sha id s1.registry key env.body with
        | .error _ => .error ()
        | .ok (_, reg1) => .ok { s1 with registry := reg1 }
    | none => .ok s1
  else .ok s1

/-- The attempt loop of `_executeWithRetry`.  Fuel counts the remaining
loop iterations (`maxAttempts - attempt + 1`); exhausted fuel is the
natural loop exit.  On success the payload is `(attempt, status)`. -/
def runLoop (env : EngineEnv) :
    Nat → Nat → EngineState → EngineState × Except EngineError (Nat × Int)
  | 0, _, s => exitHandling env s
  | fuel + 1, a, s =>
    if env.inFlight ≥ maxConcurrentRequests then
      (s, .error .maxConcurrent)
    else
      match s.breaker.check env.breakerCfg (env.times a) with
      | none =>
          let s1 := fireHook s (.onCircuitOpen a)
          let s2 := enterState s1 .ERROR
          (s2, .error .circuitOpen)
      | some b1 =>
        let s1 := fireHook { s with breaker := b1 } (.beforeRequest a)
        match idempotentHeaderStep env a s1 with
        | .error _ => (s1, .error .integrityViolation)
        | .ok s2 =>
          let s3 := { s2 with fetchCalls := s2.fetchCalls + 1 }
          match env.fetchImpl a with
          | .resolved status validationError =>
            if !responseOk status then
              let s4 := { breakerFail env s3 a with lastError := some (.httpFailure status) }
              if shouldRetry env.retry (some status) a ∧ a < env.retry.maxAttempts then
                let s5 := enterState s4 .RETRYING
                let s6 := fireHook s5 (.onRetry a)
                let s7 := enterState s6 .PENDING
                runLoop env fuel (a + 1) s7
              else
                exitHandling env s4
            else
              match (if env.hasSchema && env.strictMode then validationError else none) with
              | some msg =>
                  let s4 := enterState s3 .ERROR
                  let s5 := fireHook s4 (.onError a)
                  (s5, .error (.responseValidation msg))
              | none =>
                  let s4 := { s3 with breaker := s3.breaker.recordSuccess,
                                      recordSuccessCalls := s3.recordSuccessCalls + 1 }
                  let s5 := enterState s4 .SUCCESS
                  let s6 := recordSample env s5 a (some status) true
                  let s7 := fireHook s6 (.afterResponse a)
                  (s7, .ok (a, status))
          | .timeout externalAborted =>
            let s4 := { s3 with lastError := some .timeout }
            if externalAborted then
              let s5 := enterState s4 .CANCELLED
              let s6 := fireHook s5 (.onCancel a)
              (s6, .error .timeout)
            else
              let s5 := recordSample env (breakerFail env s4 a) a none false
              if shouldRetry env.retry none a ∧ a < env.retry.maxAttempts then
                let s6 := enterState s5 .RETRYING
                let s7 := fireHook s6 (.onRetry a)
                let s8 := enterState s7 .PENDING
                runLoop env fuel (a + 1) s8
              else
                let s6 := enterState s5 .ERROR
                (s6, .error .timeout)
          | .exception isTypeError statusAtThrow =>
            if s3.machine ≠ .ERROR ∧ s3.machine ≠ .CANCELLED then
              let s4 := { s3 with lastError := some (.transport isTypeError) }
              let s5 := recordSample env (breakerFail env s4 a) a statusAtThrow false
              if isTypeError ∧ shouldRetry env.retry none a ∧ a < env.retry.maxAttempts then
                let s6 := enterState s5 .RETRYING
                let s7 := fireHook s6 (.onRetry a)
                let s8 := enterState s7 .PENDING
                runLoop env fuel (a + 1) s8
              else
                let s6 := enterState s5 .ERROR
                let s7 := fireHook s6 (.onError a)
                (s7, .error (.transport isTypeError))
            else
              (s3, .error (.transport isTypeError))

/-- One `_executeWithRetry` call: construct the state machine, transition
`IDLE → PENDING`, then run the attempt loop from attempt 1. -/
def executeWithRetry (env : EngineEnv) (breaker : CircuitBreaker) (reg : Registry)
    (metrics0 : List MetricsSample) : EngineState × Except EngineError (Nat × Int) :=
  runLoop env env.retry.maxAttempts 1
    { machine := .PENDING, statesEntered := [.PENDING], hooks := [],
      breaker := breaker, recordFailureCalls := 0, recordSuccessCalls := 0,
      metrics := metrics0, registry := reg, fetchCalls := 0,
      transportCalls := 0, lastError := none }

/-! ## Derived observations and concrete fixtures -/

/-- Hooks of the terminal set `{onAfterResponse, onError, onCancel}`. -/
def isTerminalHook : HookEvent → Bool
  | .afterResponse _ => true
  | .onError _ => true
  | .onCancel _ => true
  | _ => false

/-- How many terminal hooks fired in a trace. -/
def terminalHookCount (hs : List HookEvent) : Nat :=
  (hs.filter isTerminalHook).length

/-- A retry config with the `fixed` strategy and no jitter, mirroring the
configurations used in the repository's test scenarios. -/
def fixedRetryConfig (n : Nat) : RetryConfig :=
  { enabled := true, maxAttempts := n, strategy := .fixed, baseDelayMs := 1,
    maxDelayMs := 30000, jitter := false, retryOn := [.network, .fivexx] }

/-- A concrete engine environment for evaluating single requests: standard
protocol, strict mode, no schema, fetch outcomes given by `f`. -/
def sampleEnv (n : Nat) (f : Nat → AttemptOutcome) : EngineEnv :=
  { retry := fixedRetryConfig n, breakerCfg := defaultCircuitBreakerConfig,
    inFlight := 0, isIdempotent := false, strictMode := true, hasSchema := false,
    body := none, idemKeyOpt := none, genIdemKey := fun _ => "idem",
    sha := fun str => str, transport := fun _ => .timeout false,
    fetchImpl := f, times := fun _ => 1000, latencies := fun _ => 5,
    requestId := "req1", url := "https://api.example.com/r", method := "GET" }

/-- A freshly constructed circuit breaker. -/
def freshBreaker : CircuitBreaker :=
  { state := .CLOSED, failures := 0, halfOpenCalls := 0, lastOpenedAt := 0 }

/-- A failure sample that has just been recorded, with a measured latency
of 70 seconds. -/
def c3Sample : MetricsSample :=
  { requestId := "r1", url := "https://api.example.com/x", method := "GET",
    latencyMs := 70000, attempt := 1, status := some 500, success := false }

/-! ## Helper lemmas -/

theorem jsMapGet_mapInPlace {α : Type} (k : String) (v : α) :
    ∀ m : List (String × α), (m.find? (fun e => e.1 == k)).isSome →
      jsMapGet (m.map (fun e => if e.1 == k then (k, v) else e)) k = some v := by
  intro m
  induction m with
  | nil => intro h; simp at h
  | cons e t ih =>
      intro h
      by_cases hp : e.1 = k
      · simp [jsMapGet, List.find?, hp]
      · have hp2 : (e.1 == k) = false := by simpa using hp
        simp only [List.find?_cons, hp2] at h
        have hmap : (e :: t).map (fun x => if x.1 == k then (k, v) else x) =
            e :: t.map (fun x => if x.1 == k then (k, v) else x) := by
          rw [List.map_cons]
          congr 1
          exact if_neg (by simp [hp2])
        rw [hmap]
        have red : jsMapGet (e :: t.map (fun x => if x.1 == k then (k, v) else x)) k =
            jsMapGet (t.map (fun x => if x.1 == k then (k, v) else x)) k := by
          simp [jsMapGet, List.find?_cons, hp2]
        rw [red]
        exact ih h

theorem jsMapGet_appendNew {α : Type} (k : String) (v : α) :
    ∀ m : List (String × α), m.find? (fun e => e.1 == k) = none →
      jsMapGet (m ++ [(k, v)]) k = some v := by
  intro m
  induction m with
  | nil => intro _; simp [jsMapGet, List.find?]
  | cons e t ih =>
      intro h
      by_cases hp : e.1 = k
      · simp [List.find?_cons, hp] at h
      · have hp2 : (e.1 == k) = false := by simpa using hp
        simp only [List.find?_cons, hp2] at h
        have red : jsMapGet (e :: (t ++ [(k, v)])) k = jsMapGet (t ++ [(k, v)]) k := by
          simp [jsMapGet, List.find?_cons, hp2]
        simpa [red] using ih h

theorem jsMapGet_jsMapSet {α : Type} (m : List (String × α)) (k : String) (v : α) :
    jsMapGet (jsMapSet m k v) k = some v := by
  by_cases h : ((m.find? (fun e => e.1 == k)).isSome : Prop)
  · simp only [jsMapSet]
    rw [if_pos h]
    exact jsMapGet_mapInPlace k v m h
  · have hn : m.find? (fun e => e.1 == k) = none :=
      Option.not_isSome_iff_eq_none.mp h
    simp only [jsMapSet]
    rw [if_neg h]
    exact jsMapGet_appendNew k v m hn

/-- Iterated `recordFailure` always adds the number of calls to the
failure counter. -/
theorem recordFailures_count (cfg : CircuitBreakerConfig) :
    ∀ (times : List Int) (b : CircuitBreaker),
      (b.recordFailures cfg times).failures = b.failures + times.length := by
  intro times
  induction times with
  | nil => intro b; simp [CircuitBreaker.recordFailures]
  | cons now rest ih =>
      intro b
      have step : (b.recordFailure cfg now).failures = b.failures + 1 := by
        simp only [CircuitBreaker.recordFailure]
        split
        · rfl
        · split
          · rfl
          · rfl
      simp only [CircuitBreaker.recordFailures, List.foldl_cons, List.length_cons]
      have h1 := ih (b.recordFailure cfg now)
      simp only [CircuitBreaker.recordFailures] at h1
      rw [h1, step]
      omega

/-- A single `recordFailure` from CLOSED: the counter grows by one, and the
breaker opens exactly when it reaches the threshold. -/
theorem recordFailure_from_closed (cfg : CircuitBreakerConfig) (b : CircuitBreaker)
    (now : Int) (hb : b.state = .CLOSED) :
    (b.recordFailure cfg now).failures = b.failures + 1 ∧
    ((b.recordFailure cfg now).state =
      if b.failures + 1 ≥ cfg.failureThreshold then .OPEN else .CLOSED) := by
  by_cases hth : cfg.failureThreshold ≤ b.failures + 1
  · constructor
    · simp [CircuitBreaker.recordFailure, hb, hth, ge_iff_le]
    · simp [CircuitBreaker.recordFailure, hb, hth, ge_iff_le]
  · constructor
    · simp [CircuitBreaker.recordFailure, hb, hth, ge_iff_le]
    · simp [CircuitBreaker.recordFailure, hb, hth, ge_iff_le]

/-- A single `recordFailure` from OPEN keeps the counter-threshold
relation once the counter has crossed the threshold. -/
theorem recordFailure_from_open (cfg : CircuitBreakerConfig) (b : CircuitBreaker)
    (now : Int) (hb : b.state = .OPEN) (hf : cfg.failureThreshold ≤ b.failures) :
    (b.recordFailure cfg now).state = .OPEN ∧
    (b.recordFailure cfg now).failures = b.failures + 1 := by
  have hth : cfg.failureThreshold ≤ b.failures + 1 := by omega
  constructor
  · simp [CircuitBreaker.recordFailure, hb, hth, ge_iff_le]
  · simp [CircuitBreaker.recordFailure, hb, hth, ge_iff_le]

/-- Invariant of the failure fold: starting CLOSED below threshold, the
breaker is either still CLOSED below threshold or OPEN at/above it. -/
theorem recordFailures_invariant (cfg : CircuitBreakerConfig) :
    ∀ (times : List Int) (b : CircuitBreaker),
      (b.state = .CLOSED ∧ b.failures < cfg.failureThreshold) ∨
        (b.state = .OPEN ∧ cfg.failureThreshold ≤ b.failures) →
      ((b.recordFailures cfg times).state = .CLOSED ∧
          (b.recordFailures cfg times).failures < cfg.failureThreshold) ∨
        ((b.recordFailures cfg times).state = .OPEN ∧
          cfg.failureThreshold ≤ (b.recordFailures cfg times).failures) := by
  intro times
  induction times with
  | nil => intro b h; simpa [CircuitBreaker.recordFailures] using h
  | cons now rest ih =>
      intro b h
      have step :
          ((b.recordFailure cfg now).state = .CLOSED ∧
            (b.recordFailure cfg now).failures < cfg.failureThreshold) ∨
          ((b.recordFailure cfg now).state = .OPEN ∧
            cfg.failureThreshold ≤ (b.recordFailure cfg now).failures) := by
        rcases h with ⟨hs, hlt⟩ | ⟨hs, hge⟩
        · rcases recordFailure_from_closed cfg b now hs with ⟨hc, hst⟩
          by_cases hth : b.failures + 1 ≥ cfg.failureThreshold
          · right; constructor
            · rw [hst]; simp [hth]
            · omega
          · left; constructor
            · rw [hst]; simp [hth]
            · omega
        · rcases recordFailure_from_open cfg b now hs hge with ⟨hst, hc⟩
          right
          exact ⟨hst, by omega⟩
      have := ih (b.recordFailure cfg now) step
      simpa [CircuitBreaker.recordFailures, List.foldl_cons] using this

/-! ## Claim C3 — recentFailures and the missing timestamp -/

/-- C3: the source filter is `!s.success && Date.now() - s.latencyMs > cutoff`,
which compares the latency against the window instead of any notion of the
sample's age: a failure sample just recorded (so certainly inside any
window of the current time) is NOT counted when its latency exceeds the
window, while the same sample with a 5 ms latency is counted no matter how
long ago it was recorded.  Samples carry no timestamp at all, so the count
claimed over `timestamp lies within the last w milliseconds` is not what
the code computes. -/
theorem C3_recentFailures_ignores_recency :
    Metrics.recentFailures [c3Sample] 1000000 60000 = 0 ∧
    c3Sample.success = false ∧
    Metrics.recentFailures [{ c3Sample with latencyMs := 5 }] 1000000 60000 = 1 := by
  refine ⟨?_, rfl, ?_⟩ <;> decide

/-! ## Claim C4 — circuit-breaker lifecycle -/

/-- C4: after `failureThreshold` consecutive `recordFailure` calls starting
from a fresh CLOSED breaker the state is OPEN; a `check()` at least
`resetTimeoutMs` after opening moves to HALF_OPEN — its OPEN-phase resets
`halfOpenCalls` to 0, after which the same call is admitted as the first
probe (counter 1); `recordSuccess` in HALF_OPEN closes the breaker and
clears the failure counter; `recordFailure` in HALF_OPEN reopens and
re-stamps `lastOpenedAt`. -/
theorem C4_circuit_breaker_lifecycle (cfg : CircuitBreakerConfig)
    (b : CircuitBreaker) (times : List Int) (now now2 : Int)
    (ht : 1 ≤ cfg.failureThreshold) (hmax : 1 ≤ cfg.halfOpenMaxCalls)
    (hlen : times.length = cfg.failureThreshold) :
    (b.state = .CLOSED → b.failures = 0 →
      (b.recordFailures cfg times).state = .OPEN) ∧
    (∀ b2 : CircuitBreaker, b2.state = .OPEN →
      now - b2.lastOpenedAt ≥ cfg.resetTimeoutMs →
      (∃ bh, b2.checkOpenPhase cfg now = some bh ∧
        bh.state = .HALF_OPEN ∧ bh.halfOpenCalls = 0) ∧
      (∃ bc, b2.check cfg now = some bc ∧
        bc.state = .HALF_OPEN ∧ bc.halfOpenCalls = 1)) ∧
    (∀ b3 : CircuitBreaker, b3.state = .HALF_OPEN →
      b3.recordSuccess.state = .CLOSED ∧ b3.recordSuccess.failures = 0) ∧
    (∀ b4 : CircuitBreaker, b4.state = .HALF_OPEN →
      (b4.recordFailure cfg now2).state = .OPEN ∧
      (b4.recordFailure cfg now2).lastOpenedAt = now2) := by
  refine ⟨?_, ?_, ?_, ?_⟩
  · intro hs hf
    have hinv := recordFailures_invariant cfg times b (Or.inl ⟨hs, by omega⟩)
    have hcount := recordFailures_count cfg times b
    rcases hinv with ⟨_, hlt⟩ | ⟨hopen, _⟩
    · omega
    · exact hopen
  · intro b2 hs helapsed
    have hopen : b2.checkOpenPhase cfg now =
        some { b2 with state := .HALF_OPEN, halfOpenCalls := 0 } := by
      simp [CircuitBreaker.checkOpenPhase, hs, helapsed]
    refine ⟨⟨_, hopen, rfl, rfl⟩, ?_⟩
    refine ⟨{ b2 with state := .HALF_OPEN, halfOpenCalls := 1 }, ?_, rfl, rfl⟩
    rw [CircuitBreaker.check, hopen]
    simp [CircuitBreaker.checkHalfOpenPhase]
    omega
  · intro b3 hs
    simp [CircuitBreaker.recordSuccess, hs]
  · intro b4 hs
    simp [CircuitBreaker.recordFailure, hs]

/-- Witness for C4 at a concrete breaker configuration. -/
theorem C4_circuit_breaker_lifecycle_witness :
    ((CircuitBreaker.mk .CLOSED 0 0 0).recordFailures
      (CircuitBreakerConfig.mk 2 10 1) [100, 200]).state = .OPEN :=
  (C4_circuit_breaker_lifecycle (CircuitBreakerConfig.mk 2 10 1)
    (CircuitBreaker.mk .CLOSED 0 0 0) [100, 200] 0 0
    (by decide) (by decide) (by decide)).1 rfl rfl

/-! ## Claim C10 — recordFailure while OPEN -/

/-- C10: a `recordFailure` on an OPEN breaker whose incremented counter is
still at/above the threshold keeps the breaker OPEN, re-stamps
`lastOpenedAt` to the current time, and thereby restarts the reset window:
any `check()` strictly less than `resetTimeoutMs` later is rejected. -/
theorem C10_open_refailure_restamps (cfg : CircuitBreakerConfig)
    (b : CircuitBreaker) (now now2 : Int) (hs : b.state = .OPEN)
    (hf : cfg.failureThreshold ≤ b.failures + 1) :
    (b.recordFailure cfg now).state = .OPEN ∧
    (b.recordFailure cfg now).lastOpenedAt = now ∧
    (now2 - now < cfg.resetTimeoutMs →
      (b.recordFailure cfg now).check cfg now2 = none) := by
  have hrec : b.recordFailure cfg now =
      { b with failures := b.failures + 1, state := .OPEN, lastOpenedAt := now } := by
    simp [CircuitBreaker.recordFailure, hs, hf, ge_iff_le]
  refine ⟨by rw [hrec], by rw [hrec], ?_⟩
  intro hlt
  rw [hrec]
  simp [CircuitBreaker.check, CircuitBreaker.checkOpenPhase]
  omega

/-- Witness for C10. -/
theorem C10_open_refailure_restamps_witness :
    ((CircuitBreaker.mk .OPEN 3 0 50).recordFailure
      (CircuitBreakerConfig.mk 2 10 1) 100).lastOpenedAt = 100 :=
  (C10_open_refailure_restamps (CircuitBreakerConfig.mk 2 10 1)
    (CircuitBreaker.mk .OPEN 3 0 50) 100 0 rfl (by decide)).2.1

/-! ## Claim C5 — idempotency-key integrity pinning -/

/-- Pinning after a `set`: the registry reports the stored fingerprint. -/
theorem Registry.lookup_set (r : Registry) (k v : String) :
    (r.set k v).lookup k = some v := by
  simp only [Registry.set, Registry.lookup]
  exact jsMapGet_jsMapSet r k v

/-- C5: with the SHA-256 digest and JSON serialisation as abstract
deterministic functions, `enforceIntegrity` succeeds on a key whose pin is
absent or equal, always returning the canonical fingerprint; repeated calls
with an identically-fingerprinted body keep succeeding with the same
fingerprint and leave the pin in place; a call with a differing fingerprint
fails (the `integrity-violation` throw happens before the registry write,
so the pin is untouched). -/
theorem C5_integrity_pinning {β : Type} (sha : String → String) (serialize : β → String)
    (reg : Registry) (key : String) (b1 b2 b3 : Option β)
    (h1 : reg.lookup key = none ∨
      reg.lookup key = some (computePayloadHash sha serialize b1))
    (h2 : computePayloadHash sha serialize b2 = computePayloadHash sha serialize b1)
    (h3 : computePayloadHash sha serialize b3 ≠ computePayloadHash sha serialize b1) :
    ∃ reg1 : Registry,
      enforceIntegrity sha serialize reg key b1 =
        .ok (computePayloadHash sha serialize b1, reg1) ∧
      reg1.lookup key = some (computePayloadHash sha serialize b1) ∧
      (∃ reg2 : Registry,
        enforceIntegrity sha serialize reg1 key b2 =
          .ok (computePayloadHash sha serialize b1, reg2) ∧
        reg2.lookup key = some (computePayloadHash sha serialize b1)) ∧
      enforceIntegrity sha serialize reg1 key b3 = .error () := by
  refine ⟨reg.set key (computePayloadHash sha serialize b1), ?_, ?_, ?_, ?_⟩
  · rcases h1 with h1 | h1
    · simp [enforceIntegrity, h1]
    · simp [enforceIntegrity, h1]
  · exact Registry.lookup_set reg key _
  · refine ⟨(reg.set key (computePayloadHash sha serialize b1)).set key
      (computePayloadHash sha serialize b2), ?_, ?_⟩
    · simp [enforceIntegrity, Registry.lookup_set, h2]
    · rw [h2] at *
      exact Registry.lookup_set _ key _
  · simp [enforceIntegrity, Registry.lookup_set]
    exact fun hc => h3 hc.symm

/-- Witness for C5 at concrete bodies: same body pins and repeats, a
different body is rejected. -/
theorem C5_integrity_pinning_witness :
    ∃ reg1 : Registry,
      enforceIntegrity (fun s => s ++ "!") (fun s : String => s) [] "k1" (some "a") =
        .ok (computePayloadHash (fun s => s ++ "!") (fun s : String => s) (some "a"), reg1) ∧
      reg1.lookup "k1" =
        some (computePayloadHash (fun s => s ++ "!") (fun s : String => s) (some "a")) ∧
      (∃ reg2 : Registry,
        enforceIntegrity (fun s => s ++ "!") (fun s : String => s) reg1 "k1" (some "a") =
          .ok (computePayloadHash (fun s => s ++ "!") (fun s : String => s) (some "a"), reg2) ∧
        reg2.lookup "k1" =
          some (computePayloadHash (fun s => s ++ "!") (fun s : String => s) (some "a"))) ∧
      enforceIntegrity (fun s => s ++ "!") (fun s : String => s) reg1 "k1" (some "b") =
        .error () :=
  C5_integrity_pinning (fun s => s ++ "!") (fun s : String => s) [] "k1"
    (some "a") (some "a") (some "b") (Or.inl rfl) rfl (by decide)

/-! ## Claim C7 — dedupe gate -/

/-- Elaborated form of the eligibility test of the dedupe gate. -/
theorem dedupeEligible_iff (dedupe : Bool) (method : String) (maxAttempts : Nat) :
    dedupeEligible dedupe method maxAttempts = true ↔
      dedupe = true ∧ (method = "GET" ∨ method = "HEAD") ∧ maxAttempts ≤ 1 := by
  simp [dedupeEligible, and_assoc]

/-- Pinning after a `DedupeMap.set`. -/
theorem DedupeMap.get_set (m : DedupeMap) (k : String) (v : Nat) :
    (m.set k v).get k = some v := by
  simp only [DedupeMap.set, DedupeMap.get]
  exact jsMapGet_jsMapSet _ k v

/-- C7: the gate bypasses deduplication exactly when the eligibility
conjunction fails; an eligible request whose dedupe key is held by a
pending entry joins that entry (the very promise stored in the map); and a
second eligible identical request issued after the first one registered its
promise shares it. -/
theorem C7_dedupe_gate (dedupe : Bool) (method fullUrl : String) (maxAttempts : Nat)
    (bodyHash : String) (m : DedupeMap) (p : Nat) :
    (requestDispatch dedupe method fullUrl maxAttempts bodyHash m = .direct ↔
      ¬(dedupe = true ∧ (method = "GET" ∨ method = "HEAD") ∧ maxAttempts ≤ 1)) ∧
    (dedupe = true → (method = "GET" ∨ method = "HEAD") → maxAttempts ≤ 1 →
      m.get (computeDedupeKey method fullUrl bodyHash) = some p →
      requestDispatch dedupe method fullUrl maxAttempts bodyHash m = .shared p) ∧
    (dedupe = true → (method = "GET" ∨ method = "HEAD") → maxAttempts ≤ 1 →
      requestDispatch dedupe method fullUrl maxAttempts bodyHash
        (m.set (computeDedupeKey method fullUrl bodyHash) p) = .shared p) := by
  refine ⟨?_, ?_, ?_⟩
  · by_cases he : dedupeEligible dedupe method maxAttempts = true
    · have hne := (dedupeEligible_iff dedupe method maxAttempts).mp he
      have hnotdir :
          requestDispatch dedupe method fullUrl maxAttempts bodyHash m ≠ .direct := by
        cases hg : m.get (computeDedupeKey method fullUrl bodyHash) with
        | none => simp [requestDispatch, he, hg]
        | some q => simp [requestDispatch, he, hg]
      exact ⟨fun hdir => absurd hdir hnotdir, fun hc => absurd hne hc⟩
    · have hne : ¬(dedupe = true ∧ (method = "GET" ∨ method = "HEAD") ∧ maxAttempts ≤ 1) :=
        fun hc => he ((dedupeEligible_iff dedupe method maxAttempts).mpr hc)
      simp [requestDispatch, he, hne]
  · intro hd hm ha hget
    have he : dedupeEligible dedupe method maxAttempts = true :=
      (dedupeEligible_iff dedupe method maxAttempts).mpr ⟨hd, hm, ha⟩
    simp [requestDispatch, he, hget]
  · intro hd hm ha
    have he : dedupeEligible dedupe method maxAttempts = true :=
      (dedupeEligible_iff dedupe method maxAttempts).mpr ⟨hd, hm, ha⟩
    simp [requestDispatch, he, DedupeMap.get_set]

/-- Witness for C7: a second identical GET with dedupe on and a single
attempt joins the registered promise. -/
theorem C7_dedupe_gate_witness :
    requestDispatch true "GET" "https://api.example.com/users/1" 1 "h0"
      (DedupeMap.set []
        (computeDedupeKey "GET" "https://api.example.com/users/1" "h0") 7) =
      .shared 7 :=
  (C7_dedupe_gate true "GET" "https://api.example.com/users/1" 1 "h0" [] 7).2.2
    rfl (Or.inl rfl) (by decide)

/-! ## Claim C8 — backoff delay bounds -/

/-- C8 counterexample: with `base = max = 0` and jitter factor `1/2`, the
clamped delay is `d = 0` and the produced delay is `0`, which does not lie
in the claimed half-open interval `[⌊0.5·d⌋, ⌊d⌋) = [0, 0)`: the strict
upper bound `⌊d⌋` fails. -/
theorem C8_jitter_interval_counterexample :
    computeDelay .fixed 1 0 0 (some (1 / 2)) = 0 ∧
    ¬(computeDelay .fixed 1 0 0 (some (1 / 2)) <
        ⌊min (rawDelay .fixed 1 0) (0 : ℚ)⌋) := by
  constructor
  · norm_num [computeDelay, rawDelay]
  · norm_num [computeDelay, rawDelay]

/-- C8 amended: `computeDelay` realises the per-strategy raw delay, clamps
it with `min (·) maxDelayMs` before jitter, and floors; the result never
exceeds `maxDelayMs`; with the jitter factor `r ∈ [0.5, 1)` the produced
delay lies in the closed interval `[⌊0.5·d⌋, ⌊d⌋]` (inclusive upper bound)
where `d = min (raw, max)`, provided the raw delay is non-negative (always
true for fixed/linear/exponential with `base ≥ 0`, assumed for custom). -/
theorem C8_computeDelay_bounds (strategy : RetryStrategy) (attempt : Nat)
    (base maxD r : ℚ) (f : Nat → ℚ → ℚ)
    (_hat : 1 ≤ attempt) (h2 : 0 ≤ base) (h3 : base ≤ maxD)
    (h4 : 1 / 2 ≤ r) (h5 : r < 1)
    (h6 : 0 ≤ rawDelay strategy attempt base) :
    rawDelay .fixed attempt base = base ∧
    rawDelay .linear attempt base = base * attempt ∧
    rawDelay .exponential attempt base = base * 2 ^ (attempt - 1) ∧
    rawDelay (.custom f) attempt base = f attempt base ∧
    computeDelay strategy attempt base maxD none =
      ⌊min (rawDelay strategy attempt base) maxD⌋ ∧
    ((computeDelay strategy attempt base maxD none : ℚ) ≤ maxD ∧
      (computeDelay strategy attempt base maxD (some r) : ℚ) ≤ maxD) ∧
    ⌊(1 / 2 : ℚ) * min (rawDelay strategy attempt base) maxD⌋ ≤
      computeDelay strategy attempt base maxD (some r) ∧
    computeDelay strategy attempt base maxD (some r) ≤
      ⌊min (rawDelay strategy attempt base) maxD⌋ := by
  have hmax0 : (0 : ℚ) ≤ maxD := h2.trans h3
  have hd0 : (0 : ℚ) ≤ min (rawDelay strategy attempt base) maxD := le_min h6 hmax0
  have hdmax : min (rawDelay strategy attempt base) maxD ≤ maxD := min_le_right _ _
  have hjle : min (rawDelay strategy attempt base) maxD * r ≤
      min (rawDelay strategy attempt base) maxD :=
    mul_le_of_le_one_right hd0 h5.le
  have hjge : (1 / 2 : ℚ) * min (rawDelay strategy attempt base) maxD ≤
      min (rawDelay strategy attempt base) maxD * r := by
    rw [mul_comm]
    exact mul_le_mul_of_nonneg_left h4 hd0
  refine ⟨rfl, rfl, rfl, rfl, rfl, ⟨?_, ?_⟩, ?_, ?_⟩
  · exact le_trans (Int.floor_le _) hdmax
  · exact le_trans (Int.floor_le _) (hjle.trans hdmax)
  · exact Int.floor_mono hjge
  · exact Int.floor_mono hjle

/-- Witness for C8 at a concrete exponential configuration. -/
theorem C8_computeDelay_bounds_witness :
    computeDelay .exponential 3 100 30000 (some (3 / 4)) ≤
      ⌊min (rawDelay .exponential 3 100) (30000 : ℚ)⌋ :=
  (C8_computeDelay_bounds .exponential 3 100 30000 (3 / 4) (fun _ b => b)
    (by norm_num) (by norm_num) (by norm_num) (by norm_num) (by norm_num)
    (by norm_num [rawDelay])).2.2.2.2.2.2.2

/-! ## Engine frame lemmas -/

/-- The idempotent header block can only change the registry of the
threaded state. -/
theorem idempotentHeaderStep_ok (env : EngineEnv) (a : Nat) (s1 s2 : EngineState)
    (h : idempotentHeaderStep env a s1 = .ok s2) :
    s2 = { s1 with registry := s2.registry } := by
  simp only [idempotentHeaderStep] at h
  split at h
  · split at h
    · split at h
      · exact absurd h (by simp)
      · cases h; rfl
    · cases h; rfl
  · cases h; rfl

/-- In standard protocol mode the idempotent header block is skipped. -/
theorem idempotentHeaderStep_standard (env : EngineEnv) (a : Nat) (s1 : EngineState)
    (hstd : env.isIdempotent = false) :
    idempotentHeaderStep env a s1 = .ok s1 := by
  simp [idempotentHeaderStep, hstd]

/-- The after-loop exit code transitions to ERROR, fires no hook and keeps
every other component of the trace. -/
theorem exitHandling_fields (env : EngineEnv) (s : EngineState) :
    (exitHandling env s).1.machine = .ERROR ∧
    (exitHandling env s).1.statesEntered = s.statesEntered ++ [.ERROR] ∧
    (exitHandling env s).1.hooks = s.hooks := by
  simp only [exitHandling, enterState]
  split
  · split
    · exact ⟨rfl, rfl, rfl⟩
    · exact ⟨rfl, rfl, rfl⟩
  · exact ⟨rfl, rfl, rfl⟩

/-- The exit code records no metrics sample. -/
theorem exitHandling_metrics (env : EngineEnv) (s : EngineState) :
    ((exitHandling env s).1).metrics = s.metrics := by
  simp only [exitHandling, enterState]
  split
  · split <;> rfl
  · rfl

/-- The exit code never touches the transport-call counter. -/
theorem exitHandling_transportCalls (env : EngineEnv) (s : EngineState) :
    ((exitHandling env s).1).transportCalls = s.transportCalls := by
  simp only [exitHandling, enterState]
  split
  · split <;> rfl
  · rfl

/-- When every attempt resolves with a status outside 2xx–3xx, the attempt
loop leaves the metrics buffer exactly as it found it. -/
theorem runLoop_metrics_nonok (env : EngineEnv)
    (h : ∀ i, ∃ status v, env.fetchImpl i = .resolved status v ∧
      (status < 200 ∨ 400 ≤ status)) :
    ∀ fuel a s, ((runLoop env fuel a s).1).metrics = s.metrics := by
  intro fuel
  induction fuel with
  | zero => intro a s; exact exitHandling_metrics env s
  | succ n ih =>
      intro a s
      obtain ⟨status, v, hout, hrange⟩ := h a
      have hok : responseOk status = false := by
        simp only [responseOk]
        rcases hrange with h1 | h1
        · simp [show ¬(200 ≤ status) by omega]
        · simp [show ¬(status < 300) by omega]
      simp only [runLoop, hout, hok, Bool.not_false, ite_true]
      split
      · rfl
      · split
        · simp [fireHook, enterState]
        · split
          · simp [fireHook]
          · rename_i b1 hcheck sres s2 hidem
            have hs2 := idempotentHeaderStep_ok env a _ s2 hidem
            split
            · rw [ih]
              rw [hs2]
              simp [fireHook, enterState, breakerFail]
            · rw [exitHandling_metrics]
              rw [hs2]
              simp [fireHook, enterState, breakerFail]

/-- No path of the attempt loop ever invokes the transport handle stored in
the client configuration: the counter is left untouched. -/
theorem runLoop_transportCalls (env : EngineEnv) :
    ∀ fuel a s, ((runLoop env fuel a s).1).transportCalls = s.transportCalls := by
  intro fuel
  induction fuel with
  | zero => intro a s; exact exitHandling_transportCalls env s
  | succ n ih =>
      intro a s
      simp only [runLoop]
      split
      · rfl
      · split
        · simp [fireHook, enterState]
        · split
          · simp [fireHook]
          · rename_i b1 hcheck sres s2 hidem
            have hs2 := idempotentHeaderStep_ok env a _ s2 hidem
            cases houtc : env.fetchImpl a with
            | resolved status verr =>
                simp only [houtc]
                split
                · split
                  · rw [ih]
                    rw [hs2]
                    simp [fireHook, enterState, breakerFail]
                  · rw [exitHandling_transportCalls]
                    rw [hs2]
                    simp [fireHook, enterState, breakerFail]
                · split
                  · rw [hs2]
                    simp [fireHook, enterState]
                  · rw [hs2]
                    simp [fireHook, enterState, recordSample]
            | timeout aborted =>
                simp only [houtc]
                split
                · rw [hs2]
                  simp [fireHook, enterState]
                · split
                  · rw [ih]
                    rw [hs2]
                    simp [fireHook, enterState, breakerFail, recordSample]
                  · rw [hs2]
                    simp [fireHook, enterState, breakerFail, recordSample]
            | exception isTE statusAt =>
                simp only [houtc]
                split
                · split
                  · rw [ih]
                    rw [hs2]
                    simp [fireHook, enterState, breakerFail, recordSample]
                  · rw [hs2]
                    simp [fireHook, enterState, breakerFail, recordSample]
                · rw [hs2]
                  simp [fireHook]

/-- Changing the stored transport handle leaves the header block alone. -/
theorem idempotentHeaderStep_transport (env : EngineEnv) (t : Nat → AttemptOutcome)
    (a : Nat) (s1 : EngineState) :
    idempotentHeaderStep { env with transport := t } a s1 =
      idempotentHeaderStep env a s1 := rfl

/-- Changing the stored transport handle leaves the exit code alone. -/
theorem exitHandling_transport (env : EngineEnv) (t : Nat → AttemptOutcome)
    (s : EngineState) :
    exitHandling { env with transport := t } s = exitHandling env s := rfl

/-- Changing the stored transport handle leaves breaker recording alone. -/
theorem breakerFail_transport (env : EngineEnv) (t : Nat → AttemptOutcome)
    (s : EngineState) (a : Nat) :
    breakerFail { env with transport := t } s a = breakerFail env s a := rfl

/-- Changing the stored transport handle leaves metrics recording alone. -/
theorem recordSample_transport (env : EngineEnv) (t : Nat → AttemptOutcome)
    (s : EngineState) (a : Nat) (status : Option Int) (success : Bool) :
    recordSample { env with transport := t } s a status success =
      recordSample env s a status success := rfl

/-- The whole attempt loop is independent of the stored transport handle. -/
theorem runLoop_transport_independent (env : EngineEnv) (t : Nat → AttemptOutcome) :
    ∀ fuel a s, runLoop { env with transport := t } fuel a s = runLoop env fuel a s := by
  intro fuel
  induction fuel with
  | zero => intro a s; rfl
  | succ n ih =>
      intro a s
      simp only [runLoop, ih, idempotentHeaderStep_transport, exitHandling_transport,
        breakerFail_transport, recordSample_transport]

/-- Main induction for the terminal-state and terminal-hook bookkeeping of
the attempt loop, under the in-flight cap and in standard protocol mode. -/
theorem runLoop_terminal (env : EngineEnv)
    (hcap : env.inFlight < maxConcurrentRequests)
    (hstd : env.isIdempotent = false) :
    ∀ fuel a s, s.machine = .PENDING →
      ((runLoop env fuel a s).1.statesEntered.filter (fun st => st.isTerminal)) =
        (s.statesEntered.filter (fun st => st.isTerminal)) ++
          [(runLoop env fuel a s).1.machine] ∧
      ((runLoop env fuel a s).1.machine).isTerminal = true ∧
      terminalHookCount (runLoop env fuel a s).1.hooks ≤ terminalHookCount s.hooks + 1 := by
  intro fuel
  induction fuel with
  | zero =>
      intro a s _
      obtain ⟨h1, h2, h3⟩ := exitHandling_fields env s
      refine ⟨?_, ?_, ?_⟩
      · rw [show (runLoop env 0 a s) = exitHandling env s from rfl, h1, h2]
        simp [List.filter_append, RequestState.isTerminal]
      · rw [show (runLoop env 0 a s) = exitHandling env s from rfl, h1]
        simp [RequestState.isTerminal]
      · rw [show (runLoop env 0 a s) = exitHandling env s from rfl, h3]
        omega
  | succ n ih =>
      intro a s hmach
      simp only [runLoop]
      split
      · omega
      · split
        · refine ⟨?_, ?_, ?_⟩ <;>
            simp [fireHook, enterState, List.filter_append, RequestState.isTerminal,
              terminalHookCount, isTerminalHook]
        · rename_i b1 hcheck
          rw [idempotentHeaderStep_standard env a _ hstd]
          cases houtc : env.fetchImpl a with
          | resolved status verr =>
              simp only [houtc]
              split
              · split
                · obtain ⟨ih1, ih2, ih3⟩ := ih (a + 1) (enterState _ .PENDING) rfl
                  refine ⟨?_, ih2, ?_⟩
                  · rw [ih1]
                    simp [fireHook, enterState, breakerFail, List.filter_append,
                      RequestState.isTerminal]
                  · refine le_trans ih3 ?_
                    simp [fireHook, enterState, breakerFail, terminalHookCount,
                      List.filter_append, isTerminalHook]
                · obtain ⟨h1, h2, h3⟩ := exitHandling_fields env _
                  refine ⟨?_, ?_, ?_⟩
                  · rw [h1, h2]
                    simp [fireHook, enterState, breakerFail, List.filter_append,
                      RequestState.isTerminal]
                  · rw [h1]; simp [RequestState.isTerminal]
                  · rw [h3]
                    simp [fireHook, breakerFail, terminalHookCount, List.filter_append,
                      isTerminalHook]
              · split
                · refine ⟨?_, ?_, ?_⟩ <;>
                    simp [fireHook, enterState, List.filter_append, RequestState.isTerminal,
                      terminalHookCount, isTerminalHook]
                · refine ⟨?_, ?_, ?_⟩ <;>
                    simp [fireHook, enterState, recordSample, List.filter_append,
                      RequestState.isTerminal, terminalHookCount, isTerminalHook]
          | timeout aborted =>
              simp only [houtc]
              split
              · refine ⟨?_, ?_, ?_⟩ <;>
                  simp [fireHook, enterState, List.filter_append, RequestState.isTerminal,
                    terminalHookCount, isTerminalHook]
              · split
                · obtain ⟨ih1, ih2, ih3⟩ := ih (a + 1) (enterState _ .PENDING) rfl
                  refine ⟨?_, ih2, ?_⟩
                  · rw [ih1]
                    simp [fireHook, enterState, breakerFail, recordSample,
                      List.filter_append, RequestState.isTerminal]
                  · refine le_trans ih3 ?_
                    simp [fireHook, enterState, breakerFail, recordSample,
                      terminalHookCount, List.filter_append, isTerminalHook]
                · refine ⟨?_, ?_, ?_⟩ <;>
                    simp [fireHook, enterState, breakerFail, recordSample,
                      List.filter_append, RequestState.isTerminal, terminalHookCount,
                      isTerminalHook]
          | exception isTE statusAt =>
              simp only [houtc]
              split
              · split
                · obtain ⟨ih1, ih2, ih3⟩ := ih (a + 1) (enterState _ .PENDING) rfl
                  refine ⟨?_, ih2, ?_⟩
                  · rw [ih1]
                    simp [fireHook, enterState, breakerFail, recordSample,
                      List.filter_append, RequestState.isTerminal]
                  · refine le_trans ih3 ?_
                    simp [fireHook, enterState, breakerFail, recordSample,
                      terminalHookCount, List.filter_append, isTerminalHook]
                · refine ⟨?_, ?_, ?_⟩ <;>
                    simp [fireHook, enterState, breakerFail, recordSample,
                      List.filter_append, RequestState.isTerminal, terminalHookCount,
                      isTerminalHook]
              · rename_i hguard
                exfalso
                apply hguard
                constructor <;> simp [fireHook, hmach]

/-! ## Claim C1 — the configured transport handle is never used -/

/-- C1: `_executeWithRetry` wraps the global `fetch` in `withTimeout`
(line 168 of `requestEngine.ts`) and never invokes the transport handle the
constructor stored from `config.transport`: the entire execution is
independent of that handle, and the count of its invocations is zero. -/
theorem C1_transport_handle_never_used (env : EngineEnv)
    (t1 t2 : Nat → AttemptOutcome) (breaker : CircuitBreaker) (reg : Registry)
    (ms : List MetricsSample) :
    executeWithRetry { env with transport := t1 } breaker reg ms =
      executeWithRetry { env with transport := t2 } breaker reg ms ∧
    ((executeWithRetry env breaker reg ms).1).transportCalls = 0 := by
  constructor
  · simp only [executeWithRetry]
    rw [runLoop_transport_independent env t1, runLoop_transport_independent env t2]
  · simp only [executeWithRetry]
    rw [runLoop_transportCalls]

/-! ## Claim C2 — terminal states and terminal hooks -/

/-- C2 counterexample: a single-attempt request whose only transport
outcome is an HTTP 500 terminates by throwing the `HTTP 500` network error
after exactly one terminal transition (to ERROR), yet fires none of
`onAfterResponse`, `onError`, `onCancel` — refuting `exactly one of the
hooks ... fires`. -/
theorem C2_exactly_one_hook_counterexample :
    (executeWithRetry (sampleEnv 1 (fun _ => .resolved 500 none)) freshBreaker [] []).2 =
      .error (.httpFailure 500) ∧
    ((executeWithRetry (sampleEnv 1 (fun _ => .resolved 500 none))
        freshBreaker [] []).1.statesEntered.filter (fun st => st.isTerminal)) = [.ERROR] ∧
    terminalHookCount
      (executeWithRetry (sampleEnv 1 (fun _ => .resolved 500 none))
        freshBreaker [] []).1.hooks = 0 := by
  refine ⟨?_, ?_, ?_⟩
  · rfl
  · rfl
  · rfl

/-- C2 amended: provided the in-flight cap is not hit and no integrity
violation interrupts an attempt (standard protocol mode), every call that
runs the attempt loop performs exactly one transition into a terminal state
— the state it finishes in — and fires at most one of `onAfterResponse`,
`onError`, `onCancel` (none fires on circuit-open, non-retryable-timeout and
retry-exhaustion/non-retryable-HTTP exits). -/
theorem C2_terminal_state_and_hooks (env : EngineEnv) (breaker : CircuitBreaker)
    (reg : Registry) (ms : List MetricsSample)
    (hcap : env.inFlight < maxConcurrentRequests)
    (hstd : env.isIdempotent = false) :
    ((executeWithRetry env breaker reg ms).1.statesEntered.filter
        (fun st => st.isTerminal)) = [(executeWithRetry env breaker reg ms).1.machine] ∧
    ((executeWithRetry env breaker reg ms).1.machine).isTerminal = true ∧
    terminalHookCount (executeWithRetry env breaker reg ms).1.hooks ≤ 1 := by
  obtain ⟨h1, h2, h3⟩ := runLoop_terminal env hcap hstd env.retry.maxAttempts 1
    { machine := .PENDING, statesEntered := [.PENDING], hooks := [],
      breaker := breaker, recordFailureCalls := 0, recordSuccessCalls := 0,
      metrics := ms, registry := reg, fetchCalls := 0, transportCalls := 0,
      lastError := none } rfl
  refine ⟨?_, h2, ?_⟩
  · simpa [executeWithRetry, RequestState.isTerminal] using h1
  · simpa [executeWithRetry, terminalHookCount] using h3

/-- Witness for the amended C2 on a successful single-attempt request. -/
theorem C2_terminal_state_and_hooks_witness :
    ((executeWithRetry (sampleEnv 1 (fun _ => .resolved 200 none))
        freshBreaker [] []).1.statesEntered.filter (fun st => st.isTerminal)) =
      [(executeWithRetry (sampleEnv 1 (fun _ => .resolved 200 none))
        freshBreaker [] []).1.machine] ∧
    ((executeWithRetry (sampleEnv 1 (fun _ => .resolved 200 none))
        freshBreaker [] []).1.machine).isTerminal = true ∧
    terminalHookCount (executeWithRetry (sampleEnv 1 (fun _ => .resolved 200 none))
        freshBreaker [] []).1.hooks ≤ 1 :=
  C2_terminal_state_and_hooks (sampleEnv 1 (fun _ => .resolved 200 none))
    freshBreaker [] [] (by decide) rfl

/-! ## Claim C6 — strict-mode validation failure -/

/-- C6: at any attempt, in either protocol mode, that passes the cap, the
breaker gate and the idempotent header block, and whose transport outcome
is an ok response on which the strict-mode validator throws, the engine
throws a `response-validation` error wrapping the inner message,
transitions to ERROR, fires `onError`, calls neither `recordFailure` nor
`recordSuccess` on the breaker, records no sample, and performs exactly one
transport call — no retry follows.  (The header-block hypothesis is
entailed by the claim's premise: an attempt that decoded a body and ran the
validator is one whose integrity check did not throw; in standard mode the
block is the identity.) -/
theorem C6_validation_failure_no_retry (env : EngineEnv) (fuel a : Nat)
    (s s2 : EngineState) (b1 : CircuitBreaker) (status : Int) (msg : String)
    (hcap : env.inFlight < maxConcurrentRequests)
    (hchk : s.breaker.check env.breakerCfg (env.times a) = some b1)
    (hidem : idempotentHeaderStep env a
      (fireHook { s with breaker := b1 } (.beforeRequest a)) = .ok s2)
    (hschema : env.hasSchema = true) (hstrict : env.strictMode = true)
    (hout : env.fetchImpl a = .resolved status (some msg))
    (hok : responseOk status = true) :
    (runLoop env (fuel + 1) a s).2 = .error (.responseValidation msg) ∧
    (runLoop env (fuel + 1) a s).1.machine = .ERROR ∧
    (runLoop env (fuel + 1) a s).1.statesEntered = s.statesEntered ++ [.ERROR] ∧
    (runLoop env (fuel + 1) a s).1.hooks = s.hooks ++ [.beforeRequest a, .onError a] ∧
    (runLoop env (fuel + 1) a s).1.recordFailureCalls = s.recordFailureCalls ∧
    (runLoop env (fuel + 1) a s).1.recordSuccessCalls = s.recordSuccessCalls ∧
    (runLoop env (fuel + 1) a s).1.fetchCalls = s.fetchCalls + 1 ∧
    (runLoop env (fuel + 1) a s).1.metrics = s.metrics := by
  have hnc : ¬(env.inFlight ≥ maxConcurrentRequests) := by omega
  obtain ⟨reg2, hreg⟩ : ∃ r, s2 =
      { fireHook { s with breaker := b1 } (.beforeRequest a) with registry := r } :=
    ⟨s2.registry, idempotentHeaderStep_ok env a _ s2 hidem⟩
  subst hreg
  simp only [runLoop, hnc, if_false, hchk, hidem, hout, hschema, hstrict, hok,
    Bool.false_eq_true, Bool.and_self, if_true, ite_false, ite_true]
  simp [fireHook, enterState]

/-- Witness for C6: a strict-mode request with a throwing validator on a
200 response raises `response-validation` with no breaker activity. -/
theorem C6_validation_failure_no_retry_witness :
    (runLoop { sampleEnv 3 (fun _ => .resolved 200 (some "missing id"))
        with hasSchema := true } (2 + 1) 1
      { machine := .PENDING, statesEntered := [.PENDING], hooks := [],
        breaker := freshBreaker, recordFailureCalls := 0, recordSuccessCalls := 0,
        metrics := [], registry := [], fetchCalls := 0, transportCalls := 0,
        lastError := none }).2 = .error (.responseValidation "missing id") :=
  (C6_validation_failure_no_retry
    { sampleEnv 3 (fun _ => .resolved 200 (some "missing id")) with hasSchema := true }
    2 1
    { machine := .PENDING, statesEntered := [.PENDING], hooks := [],
      breaker := freshBreaker, recordFailureCalls := 0, recordSuccessCalls := 0,
      metrics := [], registry := [], fetchCalls := 0, transportCalls := 0,
      lastError := none }
    { machine := .PENDING, statesEntered := [.PENDING], hooks := [.beforeRequest 1],
      breaker := freshBreaker, recordFailureCalls := 0, recordSuccessCalls := 0,
      metrics := [], registry := [], fetchCalls := 0, transportCalls := 0,
      lastError := none }
    freshBreaker 200 "missing id" (by decide) (by decide) rfl rfl rfl rfl
    (by decide)).1

/-! ## Claim C9 — non-2xx responses leave the metrics buffer unchanged -/

/-- C9: whenever every transport outcome of a request is a resolved
response with status outside 2xx–3xx, the metrics buffer after the call is
exactly the buffer before it — non-ok responses record no sample (samples
are appended only by the success, timeout and transport-exception
branches). -/
theorem C9_non_ok_attempts_leave_metrics (env : EngineEnv)
    (h : ∀ i, ∃ status v, env.fetchImpl i = .resolved status v ∧
      (status < 200 ∨ 400 ≤ status)) :
    (∀ fuel a s, ((runLoop env fuel a s).1).metrics = s.metrics) ∧
    (∀ breaker reg ms, ((executeWithRetry env breaker reg ms).1).metrics = ms) := by
  refine ⟨runLoop_metrics_nonok env h, fun breaker reg ms => ?_⟩
  simpa [executeWithRetry] using
    runLoop_metrics_nonok env h env.retry.maxAttempts 1
      { machine := .PENDING, statesEntered := [.PENDING], hooks := [],
        breaker := breaker, recordFailureCalls := 0, recordSuccessCalls := 0,
        metrics := ms, registry := reg, fetchCalls := 0, transportCalls := 0,
        lastError := none }

/-- Witness for C9: two 503 attempts leave an empty metrics buffer empty. -/
theorem C9_non_ok_attempts_leave_metrics_witness :
    ((executeWithRetry (sampleEnv 2 (fun _ => .resolved 503 none))
        freshBreaker [] []).1).metrics = [] :=
  (C9_non_ok_attempts_leave_metrics (sampleEnv 2 (fun _ => .resolved 503 none))
    (fun _ => ⟨503, none, rfl, Or.inr (by decide)⟩)).2 freshBreaker [] []

end Strontium
